import Mathlib

/-!
Verification development for the flux-parity growth-allocation repository.

The repository's figure scripts call two library layers that are not part of
the shown sources: the algebraic steady-state model (`growth.model`) and the
flux-parity equilibrator (`growth.integrate.equilibrate_FPM`).  Both layers
are modelled here from the specification: the equilibrator as an executable
fixed-point iteration over exact rationals, and the steady-state model as
real-valued closed forms obtained from the Michaelis-Menten flux-balance
derivation the specification describes.
-/

namespace FluxParity

/-! ### The flux-parity equilibrator, modelled over `ℚ` -/

/-- Modelled from the spec: the allocation policy of an equilibration call is
either a fixed scalar `phiRb` or a dynamic mode carrying an initial `phiRb`
that is then driven toward an instantaneous optimum. -/
inductive AllocationPolicy where
  | fixed (phiRb : ℚ)
  | dynamic (initial_phiRb : ℚ)
deriving DecidableEq, Repr

/-- Modelled from the spec: the configuration record passed to
`equilibrate_FPM` by the figure scripts.  It carries all rate constants, and
optionally a fixed `phiRb` and/or a `dynamic_phiRb` sub-configuration (the
sub-configuration's single `phiRb` entry is modelled as the carried `ℚ`). -/
structure FPMConfig where
  gamma_max : ℚ
  nu_max : ℚ
  Kd_TAA : ℚ
  Kd_TAA_star : ℚ
  tau : ℚ
  kappa_max : ℚ
  phi_O : ℚ
  phiRb : Option ℚ
  dynamic_phiRb : Option ℚ
deriving DecidableEq, Repr

/-- Modelled from the spec: the presence of the `dynamic_phiRb` key selects
the dynamic allocation policy; otherwise the fixed-`phiRb` policy is used,
taking the `phiRb` key when present and an initial guess of half the
available proteome fraction when the key is absent. -/
def FPMConfig.policy (cfg : FPMConfig) : AllocationPolicy :=
  match cfg.dynamic_phiRb with
  | some p => .dynamic p
  | none => .fixed (cfg.phiRb.getD ((1 - cfg.phi_O) / 2))

/-- Whether the active allocation policy is the dynamic one. -/
def AllocationPolicy.isDynamic : AllocationPolicy → Bool
  | .dynamic _ => true
  | .fixed _ => false

/-- Whether the active allocation policy is the fixed-`phiRb` one. -/
def AllocationPolicy.isFixed : AllocationPolicy → Bool
  | .dynamic _ => false
  | .fixed _ => true

/-- The allocation value a policy starts from. -/
def AllocationPolicy.phiRb0 : AllocationPolicy → ℚ
  | .fixed p => p
  | .dynamic p => p

/-- The initial ribosomal allocation of a configuration's active policy. -/
def FPMConfig.policyPhiRb0 (cfg : FPMConfig) : ℚ :=
  cfg.policy.phiRb0

/-- Modelled from the spec: the state of the coupled flux-parity system —
total biomass, ribosome-associated biomass, metabolic-protein biomass, the
uncharged and charged transfer-molecule pools, and the current ribosomal
allocation fraction. -/
structure FPMState where
  M : ℚ
  M_Rb : ℚ
  M_Mb : ℚ
  T_AA : ℚ
  T_AA_star : ℚ
  phiRb : ℚ
deriving DecidableEq, Repr

/-- Modelled from the spec: realized translation rate, a Michaelis-Menten
saturation of the charged transfer-molecule pool. -/
def gammaRate (cfg : FPMConfig) (st : FPMState) : ℚ :=
  cfg.gamma_max * st.T_AA_star / (st.T_AA_star + cfg.Kd_TAA_star)

/-- Modelled from the spec: realized metabolic rate, a Michaelis-Menten
saturation of the uncharged transfer-molecule pool. -/
def nuRate (cfg : FPMConfig) (st : FPMState) : ℚ :=
  cfg.nu_max * st.T_AA / (st.T_AA + cfg.Kd_TAA)

/-- Modelled from the spec: the instantaneous allocation that would be
optimal given the current transfer-molecule charging — the allocation at
which the metabolic production flux of charged transfer molecules equals
their consumption flux by translation (the flux-parity condition
`gamma * phiRb = nu * (1 - phi_O - phiRb)`). -/
def phiRbTarget (cfg : FPMConfig) (st : FPMState) : ℚ :=
  nuRate cfg st * (1 - cfg.phi_O) / (gammaRate cfg st + nuRate cfg st)

/-- The fixed refinement step size of the iterative strategy. -/
def dtFPM : ℚ := 1 / 10

/-- Modelled from the spec: the allocation used during the next refinement
step.  The fixed policy holds `phiRb` constant throughout; the dynamic
policy relaxes `phiRb` toward the instantaneous optimum with time constant
`tau` (larger `tau` means slower tracking). -/
def nextPhiRb (cfg : FPMConfig) (st : FPMState) : ℚ :=
  match cfg.policy with
  | .fixed p => p
  | .dynamic _ => st.phiRb + (dtFPM / cfg.tau) * (phiRbTarget cfg st - st.phiRb)

/-- Modelled from the spec: one refinement step of the fixed-point strategy —
compute the instantaneous rates from the current transfer-molecule pools,
then update the pool and biomass state with the flux-balance relations
(biomass produced by translation, allocated by `phiRb`; charged molecules
produced by metabolism and consumed with dilution by translation; uncharged
molecules synthesized at `kappa_max`, returned by translation, consumed by
charging and diluted). -/
def stepFPM (cfg : FPMConfig) (st : FPMState) : FPMState :=
  let g := gammaRate cfg st
  let n := nuRate cfg st
  let dM := g * st.M_Rb
  let p := nextPhiRb cfg st
  let dTAAstar := (n * st.M_Mb - dM * (1 + st.T_AA_star)) / st.M
  let dTAA := cfg.kappa_max + (dM - n * st.M_Mb - dM * st.T_AA) / st.M
  { M := st.M + dtFPM * dM
    M_Rb := st.M_Rb + dtFPM * p * dM
    M_Mb := st.M_Mb + dtFPM * (1 - p - cfg.phi_O) * dM
    T_AA := st.T_AA + dtFPM * dTAA
    T_AA_star := st.T_AA_star + dtFPM * dTAAstar
    phiRb := p }

/-- All biomass and pool components of a state are non-negative. -/
def stateNonneg (st : FPMState) : Prop :=
  0 ≤ st.M ∧ 0 ≤ st.M_Rb ∧ 0 ≤ st.M_Mb ∧ 0 ≤ st.T_AA ∧ 0 ≤ st.T_AA_star

instance (st : FPMState) : Decidable (stateNonneg st) := by
  unfold stateNonneg; infer_instance

/-- The largest componentwise change between two consecutive iterates, used
for convergence detection. -/
def stateDiff (s t : FPMState) : ℚ :=
  max |s.M - t.M| (max |s.M_Rb - t.M_Rb| (max |s.M_Mb - t.M_Mb|
    (max |s.T_AA - t.T_AA| |s.T_AA_star - t.T_AA_star|)))

/-- Modelled from the spec: the two failure kinds the equilibrator reports —
eagerly detected invalid parameters, and convergence failure (iteration
exhaustion or a negative concentration produced by the integration). -/
inductive SolverError where
  | invalidParameters
  | convergenceFailure
deriving DecidableEq, Repr

/-- Modelled from the spec: the fixed-point refinement loop.  Each step
integrates one refinement increment; a negative concentration aborts with a
convergence failure, meeting the tolerance returns the state, and exhausting
`max_iter` steps without meeting the tolerance is a convergence failure. -/
def runFPM (cfg : FPMConfig) (tol : ℚ) : Nat → FPMState → Except SolverError FPMState
  | 0, _ => .error .convergenceFailure
  | fuel + 1, st =>
    let st' := stepFPM cfg st
    if ¬ stateNonneg st' then .error .convergenceFailure
    else if stateDiff st st' ≤ tol then .ok st'
    else runFPM cfg tol fuel st'

/-- The number of refinement steps the loop actually performs. -/
def stepsFPM (cfg : FPMConfig) (tol : ℚ) : Nat → FPMState → Nat
  | 0, _ => 0
  | fuel + 1, st =>
    let st' := stepFPM cfg st
    if ¬ stateNonneg st' then 1
    else if stateDiff st st' ≤ tol then 1
    else 1 + stepsFPM cfg tol fuel st'

/-- Whether the refinement loop reaches the tolerance (without first
producing a negative concentration) within the given number of steps. -/
def convergesWithin (cfg : FPMConfig) (tol : ℚ) : Nat → FPMState → Bool
  | 0, _ => false
  | fuel + 1, st =>
    let st' := stepFPM cfg st
    if ¬ stateNonneg st' then false
    else if stateDiff st st' ≤ tol then true
    else convergesWithin cfg tol fuel st'

/-- Modelled from the spec: eager validation of the physiological parameter
domain — positive rate constants, `phi_O ∈ [0,1)`, and an initial allocation
within the available proteome fraction. -/
def validParams (cfg : FPMConfig) : Prop :=
  0 < cfg.gamma_max ∧ 0 < cfg.nu_max ∧ 0 < cfg.Kd_TAA ∧ 0 < cfg.Kd_TAA_star ∧
  0 < cfg.tau ∧ 0 < cfg.kappa_max ∧ 0 ≤ cfg.phi_O ∧ cfg.phi_O < 1 ∧
  0 ≤ cfg.policyPhiRb0 ∧ cfg.policyPhiRb0 ≤ 1 - cfg.phi_O

instance (cfg : FPMConfig) : Decidable (validParams cfg) := by
  unfold validParams; infer_instance

/-- Modelled from the spec: the initial guess the refinement starts from —
unit total biomass partitioned by the policy's initial allocation, and small
equal transfer-molecule pools. -/
def initState (cfg : FPMConfig) : FPMState :=
  { M := 1
    M_Rb := cfg.policyPhiRb0
    M_Mb := 1 - cfg.policyPhiRb0 - cfg.phi_O
    T_AA := 1 / 5
    T_AA_star := 1 / 5
    phiRb := cfg.policyPhiRb0 }

/-- The equilibrium state as the ordered tuple the callers index into:
total biomass, ribosome-associated biomass, metabolic-protein biomass,
uncharged transfer-molecule pool, charged transfer-molecule pool. -/
def stateToList (st : FPMState) : List ℚ :=
  [st.M, st.M_Rb, st.M_Mb, st.T_AA, st.T_AA_star]

/-- Modelled from the spec: the flux-parity equilibrator.  Parameters are
validated eagerly, then the fixed-point refinement is driven from the
initial guess for at most `max_iter` steps. -/
def equilibrate_FPM (cfg : FPMConfig) (max_iter : Nat) (tol : ℚ) :
    Except SolverError (List ℚ) :=
  if validParams cfg then (runFPM cfg tol max_iter (initState cfg)).map stateToList
  else .error .invalidParameters

/-- The number of refinement iterations an equilibration call performs. -/
def equilibrateSteps (cfg : FPMConfig) (max_iter : Nat) (tol : ℚ) : Nat :=
  if validParams cfg then stepsFPM cfg tol max_iter (initState cfg) else 0

/-- Python-style positional indexing into the returned tuple: non-negative
indices count from the front, negative indices from the back. -/
def pyIdx (l : List ℚ) (i : Int) : ℚ :=
  if 0 ≤ i then l.getD i.toNat 0 else l.getD (l.length - (-i).toNat) 0

/-- The ribosome-associated fraction of total biomass of a state. -/
def ribosomalAllocationFraction (st : FPMState) : ℚ :=
  st.M_Rb / st.M

end FluxParity

namespace FluxParity

/-! ### Structural lemmas about the refinement loop -/

lemma runFPM_error_eq (cfg : FPMConfig) (tol : ℚ) :
    ∀ fuel st e, runFPM cfg tol fuel st = .error e → e = .convergenceFailure := by
  intro fuel
  induction fuel with
  | zero =>
    intro st e h
    simp only [runFPM, Except.error.injEq] at h
    exact h.symm
  | succ n ih =>
    intro st e h
    simp only [runFPM] at h
    by_cases h1 : stateNonneg (stepFPM cfg st)
    · rw [if_neg (not_not_intro h1)] at h
      by_cases h2 : stateDiff st (stepFPM cfg st) ≤ tol
      · rw [if_pos h2] at h
        exact absurd h (by simp)
      · rw [if_neg h2] at h
        exact ih _ e h
    · rw [if_pos h1] at h
      simp only [Except.error.injEq] at h
      exact h.symm

lemma runFPM_ok_iff (cfg : FPMConfig) (tol : ℚ) :
    ∀ fuel st, (∃ st', runFPM cfg tol fuel st = .ok st') ↔
      convergesWithin cfg tol fuel st = true := by
  intro fuel
  induction fuel with
  | zero =>
    intro st
    simp [runFPM, convergesWithin]
  | succ n ih =>
    intro st
    simp only [runFPM, convergesWithin]
    by_cases h1 : stateNonneg (stepFPM cfg st)
    · rw [if_neg (not_not_intro h1), if_neg (not_not_intro h1)]
      by_cases h2 : stateDiff st (stepFPM cfg st) ≤ tol
      · rw [if_pos h2, if_pos h2]
        simp
      · rw [if_neg h2, if_neg h2]
        exact ih _
    · rw [if_pos h1, if_pos h1]
      simp

lemma runFPM_not_ok (cfg : FPMConfig) (tol : ℚ) (fuel : Nat) (st : FPMState)
    (h : convergesWithin cfg tol fuel st = false) :
    runFPM cfg tol fuel st = .error .convergenceFailure := by
  cases hr : runFPM cfg tol fuel st with
  | ok st' =>
    have := (runFPM_ok_iff cfg tol fuel st).mp ⟨st', hr⟩
    rw [this] at h
    cases h
  | error e =>
    rw [runFPM_error_eq cfg tol fuel st e hr]

lemma stepsFPM_le (cfg : FPMConfig) (tol : ℚ) :
    ∀ fuel st, stepsFPM cfg tol fuel st ≤ fuel := by
  intro fuel
  induction fuel with
  | zero => intro st; simp [stepsFPM]
  | succ n ih =>
    intro st
    simp only [stepsFPM]
    by_cases h1 : stateNonneg (stepFPM cfg st)
    · rw [if_neg (not_not_intro h1)]
      by_cases h2 : stateDiff st (stepFPM cfg st) ≤ tol
      · rw [if_pos h2]; omega
      · rw [if_neg h2]
        have := ih (stepFPM cfg st)
        omega
    · rw [if_pos h1]; omega

lemma runFPM_ok_nonneg (cfg : FPMConfig) (tol : ℚ) :
    ∀ fuel st st', runFPM cfg tol fuel st = .ok st' → stateNonneg st' := by
  intro fuel
  induction fuel with
  | zero => intro st st' h; simp [runFPM] at h
  | succ n ih =>
    intro st st' h
    simp only [runFPM] at h
    by_cases h1 : stateNonneg (stepFPM cfg st)
    · rw [if_neg (not_not_intro h1)] at h
      by_cases h2 : stateDiff st (stepFPM cfg st) ≤ tol
      · rw [if_pos h2] at h
        simp only [Except.ok.injEq] at h
        exact h ▸ h1
      · rw [if_neg h2] at h
        exact ih _ _ h
    · rw [if_pos h1] at h
      simp at h

lemma gammaRate_nonneg (cfg : FPMConfig) (st : FPMState)
    (hg : 0 ≤ cfg.gamma_max) (hK : 0 < cfg.Kd_TAA_star) (hT : 0 ≤ st.T_AA_star) :
    0 ≤ gammaRate cfg st := by
  unfold gammaRate
  apply div_nonneg (mul_nonneg hg hT)
  linarith

lemma stepFPM_M_mono (cfg : FPMConfig) (st : FPMState)
    (hg : 0 ≤ cfg.gamma_max) (hK : 0 < cfg.Kd_TAA_star)
    (hn : stateNonneg st) : st.M ≤ (stepFPM cfg st).M := by
  have hγ := gammaRate_nonneg cfg st hg hK hn.2.2.2.2
  have hRb : 0 ≤ st.M_Rb := hn.2.1
  simp only [stepFPM]
  have hdt : (0:ℚ) ≤ dtFPM := by norm_num [dtFPM]
  nlinarith [mul_nonneg hdt (mul_nonneg hγ hRb)]

lemma runFPM_ok_M_ge_one (cfg : FPMConfig) (tol : ℚ)
    (hg : 0 ≤ cfg.gamma_max) (hK : 0 < cfg.Kd_TAA_star) :
    ∀ fuel st st', stateNonneg st → 1 ≤ st.M →
      runFPM cfg tol fuel st = .ok st' → 1 ≤ st'.M := by
  intro fuel
  induction fuel with
  | zero => intro st st' _ _ h; simp [runFPM] at h
  | succ n ih =>
    intro st st' hn hM h
    simp only [runFPM] at h
    have hstep : 1 ≤ (stepFPM cfg st).M :=
      le_trans hM (stepFPM_M_mono cfg st hg hK hn)
    by_cases h1 : stateNonneg (stepFPM cfg st)
    · rw [if_neg (not_not_intro h1)] at h
      by_cases h2 : stateDiff st (stepFPM cfg st) ≤ tol
      · rw [if_pos h2] at h
        simp only [Except.ok.injEq] at h
        exact h ▸ hstep
      · rw [if_neg h2] at h
        exact ih _ _ h1 hstep h
    · rw [if_pos h1] at h
      simp at h

lemma initState_nonneg (cfg : FPMConfig) (hv : validParams cfg) :
    stateNonneg (initState cfg) := by
  obtain ⟨-, -, -, -, -, -, hO0, hO1, hp0, hp1⟩ := hv
  refine ⟨by norm_num [initState], ?_, ?_, by norm_num [initState], by norm_num [initState]⟩
  · simpa [initState] using hp0
  · simp only [initState]
    linarith

lemma equilibrate_ok_elim (cfg : FPMConfig) (mi : Nat) (tol : ℚ) (out : List ℚ)
    (h : equilibrate_FPM cfg mi tol = .ok out) :
    validParams cfg ∧
      ∃ st', runFPM cfg tol mi (initState cfg) = .ok st' ∧ out = stateToList st' := by
  by_cases hv : validParams cfg
  · refine ⟨hv, ?_⟩
    rw [equilibrate_FPM, if_pos hv] at h
    cases hr : runFPM cfg tol mi (initState cfg) with
    | ok st' =>
      rw [hr] at h
      simp only [Except.map, Except.ok.injEq] at h
      exact ⟨st', rfl, h.symm⟩
    | error e =>
      rw [hr] at h
      simp [Except.map] at h
  · rw [equilibrate_FPM, if_neg hv] at h
    simp at h

lemma equilibrate_not_invalid (cfg : FPMConfig) (mi : Nat) (tol : ℚ)
    (hv : validParams cfg) :
    equilibrate_FPM cfg mi tol ≠ .error .invalidParameters := by
  rw [equilibrate_FPM, if_pos hv]
  cases hr : runFPM cfg tol mi (initState cfg) with
  | ok st' => simp [Except.map]
  | error e =>
    rw [runFPM_error_eq cfg tol mi _ e hr]
    simp [Except.map]

end FluxParity

namespace FluxParity

/-! ### Concrete configurations mirroring the figure scripts' call sites -/

/-- A configuration shaped like the calls at lines 69-78 of the figure
script: both a `phiRb` key and a `dynamic_phiRb` sub-configuration are
present. -/
def cfgBothKeys : FPMConfig :=
  { gamma_max := 1, nu_max := 1, Kd_TAA := 1/5, Kd_TAA_star := 1/5,
    tau := 1, kappa_max := 1/10, phi_O := 1/2,
    phiRb := some (1/4), dynamic_phiRb := some (1/4) }

/-- A configuration shaped like the calls at lines 92-100 of the figure
script: neither a `phiRb` key nor a `dynamic_phiRb` sub-configuration is
present. -/
def cfgNoKeys : FPMConfig :=
  { gamma_max := 1, nu_max := 1, Kd_TAA := 1/5, Kd_TAA_star := 1/5,
    tau := 1, kappa_max := 1/10, phi_O := 1/2,
    phiRb := none, dynamic_phiRb := none }

/-- A configuration carrying only a fixed `phiRb`. -/
def cfgFixedOnly : FPMConfig :=
  { gamma_max := 1, nu_max := 1, Kd_TAA := 1/5, Kd_TAA_star := 1/5,
    tau := 1, kappa_max := 1/10, phi_O := 1/2,
    phiRb := some (1/4), dynamic_phiRb := none }

/-- A valid fixed-policy configuration whose first refinement step drives the
uncharged transfer-molecule pool exactly to zero. -/
def cfgZeroTAA : FPMConfig :=
  { gamma_max := 1, nu_max := 88/5, Kd_TAA := 1/5, Kd_TAA_star := 1/5,
    tau := 1, kappa_max := 1/10, phi_O := 1/2,
    phiRb := some (1/4), dynamic_phiRb := none }

/-! ### Claims about the equilibrator -/

/-- Claim C1: for every call to `equilibrate_FPM`, exactly one allocation
policy is active; the presence of the `dynamic_phiRb` key selects the
dynamic policy and otherwise the fixed-`phiRb` policy is used, and the
solver accepts (never rejects as invalid-parameters) any configuration with
valid rate constants, whether it carries a fixed `phiRb`, a `dynamic_phiRb`
sub-configuration, both, or neither. -/
theorem claim_C1_policy_selection (cfg : FPMConfig) :
    (cfg.policy.isDynamic = true ∨ cfg.policy.isFixed = true) ∧
    ¬ (cfg.policy.isDynamic = true ∧ cfg.policy.isFixed = true) ∧
    (cfg.policy.isDynamic = true ↔ cfg.dynamic_phiRb ≠ none) ∧
    (validParams cfg → ∀ max_iter tol,
      equilibrate_FPM cfg max_iter tol ≠ .error .invalidParameters) := by
  refine ⟨?_, ?_, ?_, fun hv max_iter tol => equilibrate_not_invalid cfg max_iter tol hv⟩ <;>
    cases h : cfg.dynamic_phiRb <;>
      simp [FPMConfig.policy, h, AllocationPolicy.isDynamic, AllocationPolicy.isFixed]

/-- Witness for claim C1: the both-keys call shape of the figure script
selects the dynamic policy and is accepted, and the neither-key call shape
selects the fixed policy and is accepted. -/
theorem claim_C1_policy_selection_witness :
    (validParams cfgBothKeys ∧ cfgBothKeys.policy.isDynamic = true ∧
      equilibrate_FPM cfgBothKeys 3 1 ≠ .error .invalidParameters) ∧
    (validParams cfgNoKeys ∧ cfgNoKeys.policy.isFixed = true ∧
      equilibrate_FPM cfgNoKeys 3 1 ≠ .error .invalidParameters) := by
  have hv1 : validParams cfgBothKeys := by
    norm_num [validParams, cfgBothKeys, FPMConfig.policyPhiRb0, FPMConfig.policy,
      AllocationPolicy.phiRb0]
  have hv2 : validParams cfgNoKeys := by
    norm_num [validParams, cfgNoKeys, FPMConfig.policyPhiRb0, FPMConfig.policy,
      AllocationPolicy.phiRb0]
  exact ⟨⟨hv1, rfl, (claim_C1_policy_selection cfgBothKeys).2.2.2 hv1 3 1⟩,
    ⟨hv2, rfl, (claim_C1_policy_selection cfgNoKeys).2.2.2 hv2 3 1⟩⟩

/-- Claim C2: a successful `equilibrate_FPM` call returns the equilibrium
state as the ordered tuple (total biomass, ribosome-associated biomass,
metabolic-protein biomass, uncharged pool, charged pool), so `out[1]/out[0]`
is the ribosomal allocation fraction, `out[2]` the metabolic-protein
biomass, `out[-2]` the uncharged and `out[-1]` the charged concentration. -/
theorem claim_C2_output_tuple_order (cfg : FPMConfig) (max_iter : Nat) (tol : ℚ)
    (out : List ℚ) (h : equilibrate_FPM cfg max_iter tol = .ok out) :
    ∃ st : FPMState, out = stateToList st ∧ out.length = 5 ∧
      pyIdx out 1 / pyIdx out 0 = ribosomalAllocationFraction st ∧
      pyIdx out 2 = st.M_Mb ∧
      pyIdx out (-2) = st.T_AA ∧
      pyIdx out (-1) = st.T_AA_star := by
  obtain ⟨-, st', hrun, hout⟩ := equilibrate_ok_elim cfg max_iter tol out h
  subst hout
  exact ⟨st', rfl, rfl, rfl, rfl, rfl, rfl⟩

/-- Witness for claim C2: a concrete successful equilibration whose returned
tuple is positionally decomposed as the claim states. -/
theorem claim_C2_output_tuple_order_witness :
    equilibrate_FPM cfgFixedOnly 1 1 =
      .ok [81/80, 81/320, 81/320, 83/400, 79/400] ∧
    ∃ st : FPMState,
      ([81/80, 81/320, 81/320, 83/400, 79/400] : List ℚ) = stateToList st ∧
      ([81/80, 81/320, 81/320, 83/400, 79/400] : List ℚ).length = 5 ∧
      pyIdx [81/80, 81/320, 81/320, 83/400, 79/400] 1 /
        pyIdx [81/80, 81/320, 81/320, 83/400, 79/400] 0 =
        ribosomalAllocationFraction st ∧
      pyIdx [81/80, 81/320, 81/320, 83/400, 79/400] 2 = st.M_Mb ∧
      pyIdx [81/80, 81/320, 81/320, 83/400, 79/400] (-2) = st.T_AA ∧
      pyIdx [81/80, 81/320, 81/320, 83/400, 79/400] (-1) = st.T_AA_star := by
  have h : equilibrate_FPM cfgFixedOnly 1 1 =
      .ok [81/80, 81/320, 81/320, 83/400, 79/400] := by
    norm_num [equilibrate_FPM, validParams, FPMConfig.policyPhiRb0, FPMConfig.policy,
      AllocationPolicy.phiRb0, initState, runFPM, stepFPM, stateNonneg, stateDiff,
      gammaRate, nuRate, nextPhiRb, dtFPM, cfgFixedOnly, stateToList, Except.map, abs_le]
  exact ⟨h, claim_C2_output_tuple_order cfgFixedOnly 1 1 _ h⟩

/-- Claim C4: whenever the fixed-point iteration fails to reach the
tolerance within `max_iter` steps (including by producing a negative
concentration first), the call reports a convergence failure and returns no
state. -/
theorem claim_C4_convergence_failure_reported (cfg : FPMConfig) (max_iter : Nat)
    (tol : ℚ) (hv : validParams cfg)
    (hnc : convergesWithin cfg tol max_iter (initState cfg) = false) :
    equilibrate_FPM cfg max_iter tol = .error .convergenceFailure ∧
    ∀ out, equilibrate_FPM cfg max_iter tol ≠ .ok out := by
  have hrw : equilibrate_FPM cfg max_iter tol =
      (runFPM cfg tol max_iter (initState cfg)).map stateToList := by
    rw [equilibrate_FPM, if_pos hv]
  rw [hrw, runFPM_not_ok cfg tol max_iter _ hnc]
  exact ⟨by simp [Except.map], by intro out; simp [Except.map]⟩

/-- Witness for claim C4: with `max_iter = 1` forced on a valid
configuration whose first step does not meet the tolerance, the call raises
a convergence failure rather than returning a state. -/
theorem claim_C4_convergence_failure_reported_witness :
    validParams cfgFixedOnly ∧
    convergesWithin cfgFixedOnly (1/1000000) 1 (initState cfgFixedOnly) = false ∧
    equilibrate_FPM cfgFixedOnly 1 (1/1000000) = .error .convergenceFailure := by
  have hv : validParams cfgFixedOnly := by
    norm_num [validParams, cfgFixedOnly, FPMConfig.policyPhiRb0, FPMConfig.policy,
      AllocationPolicy.phiRb0]
  have hnc : convergesWithin cfgFixedOnly (1/1000000) 1 (initState cfgFixedOnly) = false := by
    norm_num [convergesWithin, initState, stepFPM, stateNonneg, stateDiff, gammaRate,
      nuRate, nextPhiRb, dtFPM, cfgFixedOnly, FPMConfig.policyPhiRb0, FPMConfig.policy,
      AllocationPolicy.phiRb0, abs_le]
  exact ⟨hv, hnc,
    (claim_C4_convergence_failure_reported cfgFixedOnly 1 (1/1000000) hv hnc).1⟩

/-- Claim C5: `equilibrate_FPM` always terminates, performing at most
`max_iter` refinement iterations. -/
theorem claim_C5_terminates_within_max_iter (cfg : FPMConfig) (max_iter : Nat)
    (tol : ℚ) : equilibrateSteps cfg max_iter tol ≤ max_iter := by
  unfold equilibrateSteps
  split
  · exact stepsFPM_le cfg tol max_iter _
  · exact Nat.zero_le max_iter

/-- Claim C9: `equilibrate_FPM` is deterministic — identical configurations
give identical initial conditions and identical results. -/
theorem claim_C9_deterministic (cfg1 cfg2 : FPMConfig) (max_iter : Nat) (tol : ℚ)
    (h : cfg1 = cfg2) :
    initState cfg1 = initState cfg2 ∧
    equilibrate_FPM cfg1 max_iter tol = equilibrate_FPM cfg2 max_iter tol := by
  subst h
  exact ⟨rfl, rfl⟩

/-- Witness for claim C9: two calls on the same concrete configuration. -/
theorem claim_C9_deterministic_witness :
    initState cfgFixedOnly = initState cfgFixedOnly ∧
    equilibrate_FPM cfgFixedOnly 3 1 = equilibrate_FPM cfgFixedOnly 3 1 :=
  claim_C9_deterministic cfgFixedOnly cfgFixedOnly 3 1 rfl

/-- Claim C10 (amended): on every successful call all returned components
are non-negative and the total biomass `out[0]` is at least the initial unit
biomass, hence nonzero — so `out[1]/out[0]` and `out[2]/out[0]` are
well-defined; strict positivity of the transfer-molecule pools is not
guaranteed. -/
theorem claim_C10_success_nonneg_and_biomass_pos (cfg : FPMConfig)
    (max_iter : Nat) (tol : ℚ) (out : List ℚ)
    (h : equilibrate_FPM cfg max_iter tol = .ok out) :
    (∀ x ∈ out, 0 ≤ x) ∧ 1 ≤ pyIdx out 0 ∧ pyIdx out 0 ≠ 0 := by
  obtain ⟨hv, st', hrun, hout⟩ := equilibrate_ok_elim cfg max_iter tol out h
  have hnn := runFPM_ok_nonneg cfg tol max_iter _ st' hrun
  have hM : 1 ≤ st'.M :=
    runFPM_ok_M_ge_one cfg tol hv.1.le hv.2.2.2.1 max_iter _ st'
      (initState_nonneg cfg hv) (by norm_num [initState]) hrun
  subst hout
  have hpy : pyIdx (stateToList st') 0 = st'.M := rfl
  refine ⟨?_, hM, by rw [hpy]; intro h0; rw [h0] at hM; norm_num at hM⟩
  intro x hx
  simp only [stateToList, List.mem_cons, List.not_mem_nil, or_false] at hx
  rcases hx with rfl | rfl | rfl | rfl | rfl
  · exact hnn.1
  · exact hnn.2.1
  · exact hnn.2.2.1
  · exact hnn.2.2.2.1
  · exact hnn.2.2.2.2

/-- Witness for claim C10: a concrete successful equilibration with
non-negative components and nonzero total biomass. -/
theorem claim_C10_success_nonneg_witness :
    equilibrate_FPM cfgNoKeys 1 1 = .ok [81/80, 81/320, 81/320, 83/400, 79/400] ∧
    ((∀ x ∈ ([81/80, 81/320, 81/320, 83/400, 79/400] : List ℚ), 0 ≤ x) ∧
      1 ≤ pyIdx [81/80, 81/320, 81/320, 83/400, 79/400] 0 ∧
      pyIdx [81/80, 81/320, 81/320, 83/400, 79/400] 0 ≠ 0) := by
  have h : equilibrate_FPM cfgNoKeys 1 1 =
      .ok [81/80, 81/320, 81/320, 83/400, 79/400] := by
    norm_num [equilibrate_FPM, validParams, FPMConfig.policyPhiRb0, FPMConfig.policy,
      AllocationPolicy.phiRb0, initState, runFPM, stepFPM, stateNonneg, stateDiff,
      gammaRate, nuRate, nextPhiRb, dtFPM, cfgNoKeys, stateToList, Except.map, abs_le]
  exact ⟨h, claim_C10_success_nonneg_and_biomass_pos cfgNoKeys 1 1 _ h⟩

/-- Counterexample for claim C10 as stated: a valid configuration on which
`equilibrate_FPM` returns successfully with the uncharged transfer-molecule
component `out[-2]` exactly zero — not strictly positive, so the ratio
`out[-1]/out[-2]` formed by callers is not a well-defined finite number. -/
theorem claim_C10_counterexample :
    equilibrate_FPM cfgZeroTAA 1 10 = .ok [81/80, 81/320, 81/320, 0, 81/200] ∧
    pyIdx [81/80, 81/320, 81/320, 0, 81/200] (-2) = 0 := by
  constructor
  · norm_num [equilibrate_FPM, validParams, FPMConfig.policyPhiRb0, FPMConfig.policy,
      AllocationPolicy.phiRb0, initState, runFPM, stepFPM, stateNonneg, stateDiff,
      gammaRate, nuRate, nextPhiRb, dtFPM, cfgZeroTAA, stateToList, Except.map, abs_le]
  · rfl

end FluxParity

namespace FluxParity

/-! ### The algebraic steady-state model, modelled over `ℝ`

Modelled from the spec: closed forms obtained by balancing precursor
production and consumption under Michaelis-Menten kinetics.  At steady state
the precursor pool satisfies `nu_max * phi_Mb = lam * (1 + c_pc)` with
`lam = gamma_max * (c_pc / (c_pc + Kd_cpc)) * phiRb`; eliminating `c_pc`
gives the quadratic `(1 - Kd_cpc) * lam^2 - (Nu + Gamma) * lam + Nu * Gamma = 0`
with `Nu = nu_max * (1 - phiRb - phi_O)` and `Gamma = gamma_max * phiRb`,
whose smaller root is the growth rate. -/

/-- Modelled from the spec: closed-form steady-state growth rate as a
function of the ribosomal allocation (the smaller root of the flux-balance
quadratic). -/
noncomputable def steady_state_growth_rate
    (gamma_max phiRb nu_max Kd_cpc phi_O : ℝ) : ℝ :=
  let Nu := nu_max * (1 - phiRb - phi_O)
  let Gamma := gamma_max * phiRb
  (Nu + Gamma - Real.sqrt ((Nu + Gamma) ^ 2 - 4 * (1 - Kd_cpc) * Nu * Gamma)) /
    (2 * (1 - Kd_cpc))

/-- Modelled from the spec: the precursor concentration at steady state
implied by the same allocation, recovered from the mass balance
`nu_max * phi_Mb = lam * (1 + c_pc)`. -/
noncomputable def steady_state_precursors
    (gamma_max phiRb nu_max Kd_cpc phi_O : ℝ) : ℝ :=
  nu_max * (1 - phiRb - phi_O) /
    steady_state_growth_rate gamma_max phiRb nu_max Kd_cpc phi_O - 1

/-- Modelled from the spec: realized (saturated) translation rate at steady
state, `gamma = gamma_max * c_pc / (c_pc + Kd_cpc)`. -/
noncomputable def steady_state_gamma
    (gamma_max phiRb nu_max Kd_cpc phi_O : ℝ) : ℝ :=
  gamma_max *
    (steady_state_precursors gamma_max phiRb nu_max Kd_cpc phi_O /
      (steady_state_precursors gamma_max phiRb nu_max Kd_cpc phi_O + Kd_cpc))

/-- Modelled from the spec: the closed-form allocation maximizing
`steady_state_growth_rate`, obtained by solving the vanishing-derivative
condition of the flux-balance quadratic.  Writing `s` for
`sqrt (Kd_cpc * gamma_max * nu_max)`, the textbook root expression
`(1 - phi_O) * (nu_max * (gamma_max + nu_max - 2 * Kd_cpc * gamma_max)
+ s * (gamma_max - nu_max)) / ((gamma_max + nu_max)^2
- 4 * Kd_cpc * gamma_max * nu_max)` simplifies by cancelling the common
factor `gamma_max + nu_max - 2 * s` to the form used here. -/
noncomputable def phiRb_optimal_allocation
    (gamma_max nu_max Kd_cpc phi_O : ℝ) : ℝ :=
  (1 - phi_O) * (nu_max + Real.sqrt (Kd_cpc * gamma_max * nu_max)) /
    (gamma_max + nu_max + 2 * Real.sqrt (Kd_cpc * gamma_max * nu_max))

/-! ### Growth-rate facts -/

/-- Claim C8: with no ribosomes there is no growth — the steady-state growth
rate vanishes at `phiRb = 0` — and the growth rate is non-negative on the
whole allocation interval `[0, 1 - phi_O]`. -/
theorem claim_C8_zero_allocation_zero_growth (g n K O φ : ℝ)
    (hg : 0 < g) (hn : 0 < n) (hK : 0 < K) (hO0 : 0 ≤ O) (hO1 : O < 1) :
    steady_state_growth_rate g 0 n K O = 0 ∧
    (0 ≤ φ → φ ≤ 1 - O → 0 ≤ steady_state_growth_rate g φ n K O) := by
  constructor
  · have hN : 0 ≤ n * (1 - O) := by nlinarith
    simp only [steady_state_growth_rate]
    rw [sub_zero, mul_zero, add_zero, mul_zero, sub_zero, Real.sqrt_sq hN, sub_self, zero_div]
  · intro hφ0 hφ1
    have hN : 0 ≤ n * (1 - φ - O) := by nlinarith
    have hG : 0 ≤ g * φ := by positivity
    have hA : 0 ≤ n * (1 - φ - O) + g * φ := by linarith
    simp only [steady_state_growth_rate]
    rcases lt_trichotomy K 1 with hK1 | hK1 | hK1
    · apply div_nonneg _ (by linarith)
      have hle : (n * (1 - φ - O) + g * φ) ^ 2 - 4 * (1 - K) * (n * (1 - φ - O)) * (g * φ) ≤
          (n * (1 - φ - O) + g * φ) ^ 2 := by
        nlinarith [mul_nonneg (mul_nonneg (by linarith : (0:ℝ) ≤ 1 - K) hN) hG]
      have := Real.sqrt_le_sqrt hle
      rw [Real.sqrt_sq hA] at this
      linarith
    · rw [hK1]
      simp
    · apply div_nonneg_of_nonpos
      · have hge : (n * (1 - φ - O) + g * φ) ^ 2 ≤
            (n * (1 - φ - O) + g * φ) ^ 2 - 4 * (1 - K) * (n * (1 - φ - O)) * (g * φ) := by
          nlinarith [mul_nonneg (mul_nonneg (by linarith : (0:ℝ) ≤ K - 1) hN) hG]
        have h1 := Real.sqrt_le_sqrt hge
        rw [Real.sqrt_sq hA] at h1
        linarith
      · linarith

/-- Witness for claim C8 at a concrete valid parameter point. -/
theorem claim_C8_zero_allocation_zero_growth_witness :
    steady_state_growth_rate 2 0 2 (1/4) (1/2) = 0 ∧
    0 ≤ steady_state_growth_rate 2 (1/8) 2 (1/4) (1/2) := by
  have h := claim_C8_zero_allocation_zero_growth 2 2 (1/4) (1/2) (1/8)
    (by norm_num) (by norm_num) (by norm_num) (by norm_num) (by norm_num)
  exact ⟨h.1, h.2 (by norm_num) (by norm_num)⟩

end FluxParity

namespace FluxParity

/-! ### The smaller root of the flux-balance quadratic -/

/-- The smaller root of
`(1 - K) * x^2 - (N + G) * x + N * G = 0`, which is the steady-state growth
rate with metabolic capacity `N` and translational capacity `G`. -/
noncomputable def lamRoot (N G K : ℝ) : ℝ :=
  (N + G - Real.sqrt ((N + G) ^ 2 - 4 * (1 - K) * N * G)) / (2 * (1 - K))

lemma ssgr_eq_lamRoot (g φ n K O : ℝ) :
    steady_state_growth_rate g φ n K O = lamRoot (n * (1 - φ - O)) (g * φ) K := rfl

lemma discLam_nonneg (N G K : ℝ) (hN : 0 ≤ N) (hG : 0 ≤ G) (hK0 : 0 ≤ K) :
    0 ≤ (N + G) ^ 2 - 4 * (1 - K) * N * G := by
  nlinarith [sq_nonneg (N - G), mul_nonneg (mul_nonneg hK0 hN) hG]

lemma sqrtDisc_ge (N G K : ℝ) (hN : 0 ≤ N) (hK0 : 0 ≤ K) (hK1 : K ≤ 1) :
    G - N + 2 * K * N ≤ Real.sqrt ((N + G) ^ 2 - 4 * (1 - K) * N * G) := by
  apply Real.le_sqrt_of_sq_le
  nlinarith [mul_nonneg (mul_nonneg hK0 (sq_nonneg N)) (by linarith : (0:ℝ) ≤ 1 - K)]

lemma sqrtDisc_le (N G K : ℝ) (hN : 0 ≤ N) (hG : 0 ≤ G) (hK1 : K ≤ 1) :
    Real.sqrt ((N + G) ^ 2 - 4 * (1 - K) * N * G) ≤ N + G := by
  have h1 : (N + G) ^ 2 - 4 * (1 - K) * N * G ≤ (N + G) ^ 2 := by
    nlinarith [mul_nonneg (mul_nonneg (by linarith : (0:ℝ) ≤ 1 - K) hN) hG]
  have h2 := Real.sqrt_le_sqrt h1
  rwa [Real.sqrt_sq (by linarith)] at h2

lemma lamRoot_pos (N G K : ℝ) (hN : 0 < N) (hG : 0 < G) (hK0 : 0 ≤ K) (hK1 : K < 1) :
    0 < lamRoot N G K := by
  apply div_pos _ (by linarith)
  have hD : 0 ≤ (N + G) ^ 2 - 4 * (1 - K) * N * G :=
    discLam_nonneg N G K hN.le hG.le hK0
  have hlt : (N + G) ^ 2 - 4 * (1 - K) * N * G < (N + G) ^ 2 := by
    nlinarith [mul_pos (mul_pos (by linarith : (0:ℝ) < 1 - K) hN) hG]
  have := Real.sqrt_lt_sqrt hD hlt
  rw [Real.sqrt_sq (by linarith)] at this
  linarith

lemma lamRoot_le_left (N G K : ℝ) (hN : 0 ≤ N) (hK0 : 0 ≤ K) (hK1 : K < 1) :
    lamRoot N G K ≤ N := by
  rw [lamRoot, div_le_iff (by linarith : (0:ℝ) < 2 * (1 - K))]
  have := sqrtDisc_ge N G K hN hK0 hK1.le
  nlinarith

lemma lamRoot_le_of_quad_nonpos (N G K L : ℝ) (hK1 : K < 1) (hL : 0 ≤ L)
    (hq : (1 - K) * L ^ 2 - (N + G) * L + N * G ≤ 0) :
    lamRoot N G K ≤ L := by
  rw [lamRoot, div_le_iff (by linarith : (0:ℝ) < 2 * (1 - K))]
  have hsq : N + G - 2 * (1 - K) * L ≤
      Real.sqrt ((N + G) ^ 2 - 4 * (1 - K) * N * G) := by
    apply Real.le_sqrt_of_sq_le
    nlinarith [mul_nonneg (by linarith : (0:ℝ) ≤ 1 - K)
      (by linarith : 0 ≤ -((1 - K) * L ^ 2 - (N + G) * L + N * G))]
  linarith

lemma lamRoot_cross (N1 G1 N2 G2 K : ℝ) (hN1 : 0 ≤ N1) (hG1 : 0 ≤ G1)
    (hN2 : 0 ≤ N2) (hG2 : 0 ≤ G2) (hK0 : 0 ≤ K) (hK1 : K < 1)
    (hcross : N2 * G1 ≤ N1 * G2) :
    N2 * lamRoot N1 G1 K ≤ N1 * lamRoot N2 G2 K := by
  set t1 := Real.sqrt ((N1 + G1) ^ 2 - 4 * (1 - K) * N1 * G1) with ht1
  set t2 := Real.sqrt ((N2 + G2) ^ 2 - 4 * (1 - K) * N2 * G2) with ht2
  have ht1sq : t1 ^ 2 = (N1 + G1) ^ 2 - 4 * (1 - K) * N1 * G1 :=
    Real.sq_sqrt (discLam_nonneg N1 G1 K hN1 hG1 hK0)
  have ht2sq : t2 ^ 2 = (N2 + G2) ^ 2 - 4 * (1 - K) * N2 * G2 :=
    Real.sq_sqrt (discLam_nonneg N2 G2 K hN2 hG2 hK0)
  have ht10 : 0 ≤ t1 := Real.sqrt_nonneg _
  have ht20 : 0 ≤ t2 := Real.sqrt_nonneg _
  have hb1 : G1 - N1 + 2 * K * N1 ≤ t1 := sqrtDisc_ge N1 G1 K hN1 hK0 hK1.le
  have hb2 : G2 - N2 + 2 * K * N2 ≤ t2 := sqrtDisc_ge N2 G2 K hN2 hK0 hK1.le
  have hkey : N1 * t2 - N2 * t1 ≤ N1 * G2 - N2 * G1 := by
    rcases le_or_lt (N1 * t2) (N2 * t1) with hc | hc
    · nlinarith
    · have hprod : (N1 * t2) ^ 2 - (N2 * t1) ^ 2 =
          (N1 * G2 - N2 * G1) *
            (N1 * G2 + N2 * G1 - 2 * N1 * N2 + 4 * K * N1 * N2) := by
        rw [mul_pow, mul_pow, ht1sq, ht2sq]
        ring
      have hB : N1 * G2 + N2 * G1 - 2 * N1 * N2 + 4 * K * N1 * N2 ≤
          N1 * t2 + N2 * t1 := by
        nlinarith [mul_le_mul_of_nonneg_left hb2 hN1, mul_le_mul_of_nonneg_left hb1 hN2]
      have hsumpos : 0 < N1 * t2 + N2 * t1 := by nlinarith
      have hR : 0 ≤ N1 * G2 - N2 * G1 := by linarith
      nlinarith [mul_le_mul_of_nonneg_left hB hR]
  have h2K : (0:ℝ) < 2 * (1 - K) := by linarith
  rw [lamRoot, lamRoot, ← ht1, ← ht2]
  have e1 : N2 * ((N1 + G1 - t1) / (2 * (1 - K))) =
      N2 * (N1 + G1 - t1) / (2 * (1 - K)) := by ring
  have e2 : N1 * ((N2 + G2 - t2) / (2 * (1 - K))) =
      N1 * (N2 + G2 - t2) / (2 * (1 - K)) := by ring
  rw [e1, e2, div_le_div_iff h2K h2K]
  nlinarith [mul_le_mul_of_nonneg_right hkey h2K.le]

/-! ### Precursor and translation-rate facts -/

lemma precursors_nonneg (g n K O φ : ℝ) (hg : 0 < g) (hn : 0 < n)
    (hK0 : 0 < K) (hK1 : K < 1) (hO1 : O < 1)
    (hφ0 : 0 < φ) (hφc : φ < 1 - O) :
    0 ≤ steady_state_precursors g φ n K O := by
  have hN : 0 < n * (1 - φ - O) := by nlinarith
  have hG : 0 < g * φ := by positivity
  have hlam : 0 < lamRoot (n * (1 - φ - O)) (g * φ) K :=
    lamRoot_pos _ _ _ hN hG hK0.le hK1
  have hle : lamRoot (n * (1 - φ - O)) (g * φ) K ≤ n * (1 - φ - O) :=
    lamRoot_le_left _ _ _ hN.le hK0.le hK1
  rw [steady_state_precursors, ssgr_eq_lamRoot, sub_nonneg]
  rw [le_div_iff hlam, one_mul]
  exact hle

lemma precursors_antitone (g n K O φ φ' : ℝ) (hg : 0 < g) (hn : 0 < n)
    (hK0 : 0 < K) (hK1 : K < 1) (hO1 : O < 1)
    (hφ0 : 0 < φ) (hφ'c : φ' < 1 - O) (hle : φ ≤ φ') :
    steady_state_precursors g φ' n K O ≤ steady_state_precursors g φ n K O := by
  have hφc : φ < 1 - O := lt_of_le_of_lt hle hφ'c
  have hφ'0 : 0 < φ' := lt_of_lt_of_le hφ0 hle
  have hN1 : 0 < n * (1 - φ - O) := by nlinarith
  have hG1 : 0 < g * φ := by positivity
  have hN2 : 0 < n * (1 - φ' - O) := by nlinarith
  have hG2 : 0 < g * φ' := by positivity
  have hlam1 : 0 < lamRoot (n * (1 - φ - O)) (g * φ) K :=
    lamRoot_pos _ _ _ hN1 hG1 hK0.le hK1
  have hlam2 : 0 < lamRoot (n * (1 - φ' - O)) (g * φ') K :=
    lamRoot_pos _ _ _ hN2 hG2 hK0.le hK1
  have hcross : (n * (1 - φ' - O)) * (g * φ) ≤ (n * (1 - φ - O)) * (g * φ') := by
    nlinarith [mul_nonneg (mul_nonneg (mul_pos hg hn).le
      (by linarith : (0:ℝ) ≤ 1 - O)) (by linarith : (0:ℝ) ≤ φ' - φ)]
  have hkey := lamRoot_cross (n * (1 - φ - O)) (g * φ) (n * (1 - φ' - O)) (g * φ')
    K hN1.le hG1.le hN2.le hG2.le hK0.le hK1 hcross
  rw [steady_state_precursors, steady_state_precursors, ssgr_eq_lamRoot,
    ssgr_eq_lamRoot, sub_le_sub_iff_right, div_le_div_iff hlam2 hlam1]
  nlinarith [hkey]

lemma mm_ratio_mono (x y K : ℝ) (hx : 0 ≤ x) (hxy : x ≤ y) (hK : 0 < K) :
    x / (x + K) ≤ y / (y + K) := by
  rw [div_le_div_iff (by linarith) (by linarith)]
  nlinarith

lemma gamma_bounds (g n K O φ : ℝ) (hg : 0 < g) (hn : 0 < n)
    (hK0 : 0 < K) (hK1 : K < 1) (hO1 : O < 1)
    (hφ0 : 0 < φ) (hφc : φ < 1 - O) :
    0 ≤ steady_state_gamma g φ n K O ∧ steady_state_gamma g φ n K O ≤ g := by
  have hc := precursors_nonneg g n K O φ hg hn hK0 hK1 hO1 hφ0 hφc
  constructor
  · rw [steady_state_gamma]
    have : 0 ≤ steady_state_precursors g φ n K O /
        (steady_state_precursors g φ n K O + K) :=
      div_nonneg hc (by linarith)
    nlinarith
  · rw [steady_state_gamma]
    have h1 : steady_state_precursors g φ n K O /
        (steady_state_precursors g φ n K O + K) ≤ 1 := by
      rw [div_le_one (by linarith)]
      linarith
    nlinarith

lemma gamma_antitone (g n K O φ φ' : ℝ) (hg : 0 < g) (hn : 0 < n)
    (hK0 : 0 < K) (hK1 : K < 1) (hO1 : O < 1)
    (hφ0 : 0 < φ) (hφ'c : φ' < 1 - O) (hle : φ ≤ φ') :
    steady_state_gamma g φ' n K O ≤ steady_state_gamma g φ n K O := by
  have hφc : φ < 1 - O := lt_of_le_of_lt hle hφ'c
  have hφ'0 : 0 < φ' := lt_of_lt_of_le hφ0 hle
  have hc' := precursors_nonneg g n K O φ' hg hn hK0 hK1 hO1 hφ'0 hφ'c
  have hanti := precursors_antitone g n K O φ φ' hg hn hK0 hK1 hO1 hφ0 hφ'c hle
  rw [steady_state_gamma, steady_state_gamma]
  exact mul_le_mul_of_nonneg_left (mm_ratio_mono _ _ K hc' hanti hK0) hg.le

lemma optimal_allocation_interior (g n K O : ℝ) (hg : 0 < g) (hn : 0 < n)
    (hK0 : 0 < K) (hO1 : O < 1) :
    0 < phiRb_optimal_allocation g n K O ∧
      phiRb_optimal_allocation g n K O < 1 - O := by
  set s := Real.sqrt (K * g * n) with hs
  have hs0 : 0 ≤ s := Real.sqrt_nonneg _
  have hden : 0 < g + n + 2 * s := by linarith
  constructor
  · rw [phiRb_optimal_allocation, ← hs]
    exact div_pos (mul_pos (by linarith) (by linarith)) hden
  · rw [phiRb_optimal_allocation, ← hs, div_lt_iff hden]
    nlinarith

lemma growth_rate_le_optimum (g n K O φ : ℝ) (hg : 0 < g) (hn : 0 < n)
    (hK0 : 0 < K) (hK1 : K < 1) (hO0 : 0 ≤ O) (hO1 : O < 1)
    (hφ0 : 0 ≤ φ) (hφc : φ ≤ 1 - O) :
    steady_state_growth_rate g φ n K O ≤
      steady_state_growth_rate g (phiRb_optimal_allocation g n K O) n K O := by
  set s := Real.sqrt (K * g * n) with hs
  have hs2 : s ^ 2 = K * g * n := Real.sq_sqrt (by positivity)
  have hs0 : 0 ≤ s := Real.sqrt_nonneg _
  have hden : 0 < g + n + 2 * s := by linarith
  have hd0 : g + n + 2 * s ≠ 0 := ne_of_gt hden
  have hgn0 : g * n ≠ 0 := by positivity
  have hKval : K = s ^ 2 / (g * n) := by rw [hs2]; field_simp; ring
  have hφstar : phiRb_optimal_allocation g n K O =
      (1 - O) * (n + s) / (g + n + 2 * s) := by
    rw [phiRb_optimal_allocation, ← hs]
  rw [hφstar]
  rw [ssgr_eq_lamRoot, ssgr_eq_lamRoot]
  have hNs : n * (1 - (1 - O) * (n + s) / (g + n + 2 * s) - O) =
      n * (1 - O) * (g + s) / (g + n + 2 * s) := by
    field_simp
    ring
  have hGs : g * ((1 - O) * (n + s) / (g + n + 2 * s)) =
      g * (1 - O) * (n + s) / (g + n + 2 * s) := by
    ring
  have hDs : (n * (1 - O) * (g + s) / (g + n + 2 * s) +
        g * (1 - O) * (n + s) / (g + n + 2 * s)) ^ 2 -
        4 * (1 - K) * (n * (1 - O) * (g + s) / (g + n + 2 * s)) *
          (g * (1 - O) * (n + s) / (g + n + 2 * s)) =
      ((1 - O) * s) ^ 2 := by
    rw [hKval]
    field_simp
    ring
  have hgns0 : g * n - s ^ 2 ≠ 0 := by
    rw [hs2]
    nlinarith [mul_pos (mul_pos hg hn) (by linarith : (0:ℝ) < 1 - K)]
  have hLlam : lamRoot (n * (1 - (1 - O) * (n + s) / (g + n + 2 * s) - O))
      (g * ((1 - O) * (n + s) / (g + n + 2 * s))) K =
      (1 - O) * g * n / (g + n + 2 * s) := by
    rw [lamRoot, hNs, hGs, hDs,
      Real.sqrt_sq (mul_nonneg (by linarith : (0:ℝ) ≤ 1 - O) hs0)]
    rw [hKval]
    field_simp
    ring
  rw [hLlam]
  have hq : (1 - K) * ((1 - O) * g * n / (g + n + 2 * s)) ^ 2 -
      (n * (1 - φ - O) + g * φ) * ((1 - O) * g * n / (g + n + 2 * s)) +
      (n * (1 - φ - O)) * (g * φ) =
      -(g * n) * (φ - (1 - O) * (n + s) / (g + n + 2 * s)) ^ 2 := by
    rw [hKval]
    field_simp
    ring
  apply lamRoot_le_of_quad_nonpos _ _ _ _ hK1
  · exact div_nonneg
      (mul_nonneg (mul_nonneg (by linarith : (0:ℝ) ≤ 1 - O) hg.le) hn.le) hden.le
  · rw [hq]
    nlinarith [sq_nonneg (φ - (1 - O) * (n + s) / (g + n + 2 * s)), mul_pos hg hn]

end FluxParity

namespace FluxParity

/-- Claim C6: for valid positive rate constants (with `Kd_cpc` inside the
physiological range `(0,1)`) and `phi_O ∈ [0,1)`, the closed-form
`phiRb_optimal_allocation` lies strictly inside `(0, 1 - phi_O)` and the
steady-state growth rate it achieves is at least the growth rate of every
other allocation in `[0, 1 - phi_O]`. -/
theorem claim_C6_optimal_allocation (g n K O φ : ℝ)
    (hg : 0 < g) (hn : 0 < n) (hK0 : 0 < K) (hK1 : K < 1)
    (hO0 : 0 ≤ O) (hO1 : O < 1) (hφ0 : 0 ≤ φ) (hφc : φ ≤ 1 - O) :
    (0 < phiRb_optimal_allocation g n K O ∧
      phiRb_optimal_allocation g n K O < 1 - O) ∧
    steady_state_growth_rate g φ n K O ≤
      steady_state_growth_rate g (phiRb_optimal_allocation g n K O) n K O :=
  ⟨optimal_allocation_interior g n K O hg hn hK0 hO1,
    growth_rate_le_optimum g n K O φ hg hn hK0 hK1 hO0 hO1 hφ0 hφc⟩

/-- Witness for claim C6 at a concrete valid parameter point. -/
theorem claim_C6_optimal_allocation_witness :
    (0 < phiRb_optimal_allocation 2 2 (1/4) (1/2) ∧
      phiRb_optimal_allocation 2 2 (1/4) (1/2) < 1 - 1/2) ∧
    steady_state_growth_rate 2 (1/8) 2 (1/4) (1/2) ≤
      steady_state_growth_rate 2 (phiRb_optimal_allocation 2 2 (1/4) (1/2))
        2 (1/4) (1/2) :=
  claim_C6_optimal_allocation 2 2 (1/4) (1/2) (1/8) (by norm_num) (by norm_num)
    (by norm_num) (by norm_num) (by norm_num) (by norm_num) (by norm_num)
    (by norm_num)

/-- Counterexample for claim C7 as stated: `steady_state_gamma` is not
monotonically non-decreasing in `phiRb` — with all other parameters fixed at
valid values it strictly decreases from the allocation `1/4` to the larger
allocation `12/25`. -/
theorem claim_C7_counterexample :
    (1/4 : ℝ) < 12/25 ∧
    steady_state_gamma 2 (12/25) 2 (1/4) (1/2) <
      steady_state_gamma 2 (1/4) 2 (1/4) (1/2) := by
  refine ⟨by norm_num, ?_⟩
  have hl1 : steady_state_growth_rate 2 (1/4) 2 (1/4) (1/2) = 1/3 := by
    rw [steady_state_growth_rate]
    norm_num
    rw [show (4:ℝ) = 2^2 by norm_num, Real.sqrt_sq (by norm_num : (0:ℝ) ≤ 2)]
    norm_num
  have hc1 : steady_state_precursors 2 (1/4) 2 (1/4) (1/2) = 1/2 := by
    rw [steady_state_precursors, hl1]
    norm_num
  have hg1 : steady_state_gamma 2 (1/4) 2 (1/4) (1/2) = 4/3 := by
    rw [steady_state_gamma, hc1]
    norm_num
  have hl2 : 2/75 < steady_state_growth_rate 2 (12/25) 2 (1/4) (1/2) := by
    rw [steady_state_growth_rate]
    norm_num
    rw [show (625:ℝ) = 25^2 by norm_num, Real.sqrt_sq (by norm_num : (0:ℝ) ≤ 25)]
    have h553 : Real.sqrt 553 < 24 := (Real.sqrt_lt' (by norm_num)).mpr (by norm_num)
    rw [div_lt_div_iff (by norm_num) (by norm_num)]
    nlinarith [h553]
  have hl2pos : 0 < steady_state_growth_rate 2 (12/25) 2 (1/4) (1/2) :=
    lt_trans (by norm_num) hl2
  have hnum : (2:ℝ) * (1 - 12/25 - 1/2) = 1/25 := by norm_num
  have hc2lt : steady_state_precursors 2 (12/25) 2 (1/4) (1/2) < 1/2 := by
    rw [steady_state_precursors, hnum, sub_lt_iff_lt_add, div_lt_iff hl2pos]
    nlinarith [hl2]
  have hc2nn : 0 ≤ steady_state_precursors 2 (12/25) 2 (1/4) (1/2) :=
    precursors_nonneg 2 2 (1/4) (1/2) (12/25) (by norm_num) (by norm_num)
      (by norm_num) (by norm_num) (by norm_num) (by norm_num) (by norm_num)
  have hg2 : steady_state_gamma 2 (12/25) 2 (1/4) (1/2) < 4/3 := by
    rw [steady_state_gamma]
    have h1 : steady_state_precursors 2 (12/25) 2 (1/4) (1/2) /
        (steady_state_precursors 2 (12/25) 2 (1/4) (1/2) + 1/4) < 2/3 := by
      rw [div_lt_div_iff (by linarith) (by norm_num)]
      linarith
    linarith
  rw [hg1]
  exact hg2

/-- Claim C7 (amended): for fixed valid parameters, on the physical open
interval of allocations `steady_state_gamma` equals
`gamma_max * c_pc / (c_pc + Kd_cpc)` with `c_pc` the steady-state precursor
concentration, lies in `[0, gamma_max]`, and is monotonically
non-increasing (not non-decreasing) as a function of `phiRb`. -/
theorem claim_C7_gamma_formula_bounded_antitone (g n K O φ φ' : ℝ)
    (hg : 0 < g) (hn : 0 < n) (hK0 : 0 < K) (hK1 : K < 1) (hO1 : O < 1)
    (hφ0 : 0 < φ) (hφ'c : φ' < 1 - O) (hle : φ ≤ φ') :
    steady_state_gamma g φ n K O =
      g * (steady_state_precursors g φ n K O /
        (steady_state_precursors g φ n K O + K)) ∧
    (0 ≤ steady_state_gamma g φ n K O ∧ steady_state_gamma g φ n K O ≤ g) ∧
    steady_state_gamma g φ' n K O ≤ steady_state_gamma g φ n K O :=
  ⟨rfl,
    gamma_bounds g n K O φ hg hn hK0 hK1 hO1 hφ0 (lt_of_le_of_lt hle hφ'c),
    gamma_antitone g n K O φ φ' hg hn hK0 hK1 hO1 hφ0 hφ'c hle⟩

/-- Witness for the amended claim C7 at a concrete valid parameter point. -/
theorem claim_C7_gamma_formula_bounded_antitone_witness :
    steady_state_gamma 2 (1/4) 2 (1/4) (1/2) =
      2 * (steady_state_precursors 2 (1/4) 2 (1/4) (1/2) /
        (steady_state_precursors 2 (1/4) 2 (1/4) (1/2) + 1/4)) ∧
    (0 ≤ steady_state_gamma 2 (1/4) 2 (1/4) (1/2) ∧
      steady_state_gamma 2 (1/4) 2 (1/4) (1/2) ≤ 2) ∧
    steady_state_gamma 2 (1/3) 2 (1/4) (1/2) ≤
      steady_state_gamma 2 (1/4) 2 (1/4) (1/2) :=
  claim_C7_gamma_formula_bounded_antitone 2 2 (1/4) (1/2) (1/4) (1/3)
    (by norm_num) (by norm_num) (by norm_num) (by norm_num) (by norm_num)
    (by norm_num) (by norm_num) (by norm_num)

end FluxParity
